import Mathlib

/-
Shallow embedding of the Obsidian plugin `obsidian-git-auto-commit-only`
(src/main.ts).  JavaScript numbers are modelled as an inductive `JSNum`
(finite rational, NaN, ±Infinity); subprocess outcomes as `ExecResult`;
the caught exception value of the routine as `JSErrVal`, mirroring the
plain object `{ error, stdout, stderr }` that the `run` wrapper rejects
with.  The commit routine `commitAndPush` is embedded as a total function
from the busy flag, an environment fixing the vault path and the outcome
of each of the four git subprocesses, and the current date, to an
`Outcome` recording the notices shown, the subprocess commands invoked,
the error reaching the outer catch (which the code logs), and the final
value of the busy flag (the `finally` block).
-/

/-- A JavaScript number: a finite value (modelled as a rational), NaN,
or one of the two infinities. -/
inductive JSNum where
  | num (q : ℚ)
  | nan
  | posInf
  | negInf
deriving DecidableEq

/-- JavaScript `isFinite(v)`. -/
def jsIsFinite : JSNum → Bool
  | .num _ => true
  | _ => false

/-- JavaScript comparison `v <= 0` (false on NaN). -/
def jsLe0 : JSNum → Bool
  | .num q => decide (q ≤ 0)
  | .nan => false
  | .posInf => false
  | .negInf => true

/-- JavaScript comparison `v >= 0` (false on NaN). -/
def jsGe0 : JSNum → Bool
  | .num q => decide (0 ≤ q)
  | .nan => false
  | .posInf => true
  | .negInf => false

/-- JavaScript `Math.round` on a finite value: `floor(x + 0.5)`. -/
def jsRound (q : ℚ) : ℤ := Int.floor (q + 1 / 2)

/-- Scheduler state: the period (in ms) of the active repeating timer
installed via `window.setInterval`, if one is active
(`autoIntervalHandle`). -/
structure SchedState where
  activePeriod : Option ℤ
deriving DecidableEq

/-- `reschedule()` (src/main.ts lines 31-50): clear any existing interval
timer; if the configured minutes value is non-finite or `<= 0`, stop
with no timer; otherwise install a repeating timer with period
`Math.max(10_000, Math.round(minutes * 60 * 1000))` ms.  The guard
`!isFinite(minutes) || minutes <= 0` sends every non-finite value to the
no-timer branch, so only the finite case reaches the multiplication. -/
def reschedule (intervalMinutes : JSNum) (_prev : SchedState) : SchedState :=
  match intervalMinutes with
  | .num q =>
      if q ≤ 0 then ⟨none⟩
      else ⟨some (max 10000 (jsRound (q * 60000)))⟩
  | _ => ⟨none⟩

/-- The coercion applied by the settings tab to the parsed interval
(src/main.ts line 167): `isFinite(n) && n >= 0 ? n : 0`. -/
def settingsCoerce (n : JSNum) : JSNum :=
  if jsIsFinite n && jsGe0 n then n else .num 0

/-- Result of the settings `onChange` handler (src/main.ts lines 165-170):
the stored `intervalMinutes`, the value persisted via `saveSettings`,
and the scheduler state after the `reschedule()` call. -/
structure ChangeOutcome where
  stored : JSNum
  persisted : Option JSNum
  sched : SchedState
deriving DecidableEq

/-- The settings `onChange` handler, as a function of the value `n` that
`parseFloat` produced from the entered string (`parseFloat` is a host
builtin; its result is universally quantified) and the previous
scheduler state. -/
def settingsOnChange (n : JSNum) (s : SchedState) : ChangeOutcome :=
  let v := settingsCoerce n
  { stored := v, persisted := some v, sched := reschedule v s }

/-- The components of the current date that `buildCommitMessage` reads:
`getMonth()` (0-based), `getDate()`, `getFullYear()`, `getHours()`,
`getMinutes()`. -/
structure DateParts where
  month0 : ℕ
  day : ℕ
  year : ℕ
  hours : ℕ
  minutes : ℕ
deriving DecidableEq

/-- JavaScript `String.prototype.padStart(len, c)`. -/
def jsPadStart (s : String) (len : ℕ) (c : Char) : String :=
  if len ≤ s.length then s else String.mk (List.replicate (len - s.length) c) ++ s

/-- `buildCommitMessage()` (src/main.ts lines 96-104). -/
def buildCommitMessage (d : DateParts) : String :=
  "auto commit at " ++ toString (d.month0 + 1) ++ "-" ++ toString d.day ++ "-"
    ++ toString d.year ++ " " ++ toString d.hours ++ ":"
    ++ jsPadStart (toString d.minutes) 2 (Char.ofNat 48)

/-- The `error` argument that `child_process.exec` passes its callback on
failure: an `Error` object carrying a message and possibly a numeric
exit code. -/
structure ExecError where
  message : String
  code : Option ℤ
deriving DecidableEq

/-- The rejection payload of the `run` wrapper (src/main.ts line 117):
the exec error together with the captured stdout and stderr. -/
structure ExecFailure where
  error : ExecError
  stdout : String
  stderr : String
deriving DecidableEq

/-- Outcome of one subprocess invocation through `run`: resolution with
`{ stdout, stderr }`, or rejection with `{ error, stdout, stderr }`. -/
inductive ExecResult where
  | ok (stdout stderr : String)
  | fail (f : ExecFailure)
deriving DecidableEq

/-- The caught exception value as the catch blocks observe it: its
optional `stdout`, `stderr` and `message` properties (absent properties
read as `undefined`, modelled by `none`) and its `String(e)` form. -/
structure JSErrVal where
  stdout : Option String
  stderr : Option String
  message : Option String
  strForm : String
deriving DecidableEq

/-- The value `reject({ error, stdout, stderr })` builds in `run`
(src/main.ts line 117): a plain object, so it has `stdout` and `stderr`
properties, no own `message` property, and `String(e)` is the default
`"[object Object]"`. -/
def rejOf (f : ExecFailure) : JSErrVal :=
  { stdout := some f.stdout, stderr := some f.stderr, message := none
    strForm := "[object Object]" }

/-- JavaScript `a || b` on strings: `b` when `a` is the empty string
(falsy), otherwise `a`.  An absent (`undefined`) property is also falsy,
so reading it as `""` via `Option.getD` gives the same chain. -/
def jsOrS (a b : String) : String := if a = "" then b else a

/-- JavaScript `s.trim()`: strip leading and trailing whitespace. -/
def jsTrim (s : String) : String :=
  String.mk
    (((s.toList.dropWhile Char.isWhitespace).reverse.dropWhile
      Char.isWhitespace).reverse)

/-- JavaScript `s.slice(0, n)`: the first `n` characters of `s`. -/
def jsSlice (s : String) (n : ℕ) : String := String.mk (s.toList.take n)

/-- The diagnostic-text extraction both catch blocks perform
(src/main.ts lines 75-77 and 86-88):
`(stderr || stdout || e?.message || String(e)).trim()` where
`stdout = (e?.stdout ?? '').toString()` and likewise for stderr. -/
def diagText (e : JSErrVal) : String :=
  jsTrim
    (jsOrS (jsOrS (jsOrS (e.stderr.getD "") (e.stdout.getD "")) (e.message.getD ""))
      e.strForm)

/-- Whether `pat` occurs at the start of `l`. -/
def listHasPfx : List Char → List Char → Bool
  | [], _ => true
  | _ :: _, [] => false
  | p :: ps, c :: cs => p == c && listHasPfx ps cs

/-- Whether `pat` occurs as a contiguous sublist of the second list. -/
def listHasSub (pat : List Char) : List Char → Bool
  | [] => listHasPfx pat []
  | c :: cs => listHasPfx pat (c :: cs) || listHasSub pat cs

/-- The test `/nothing to commit/i.test(s)` (src/main.ts line 78):
case-insensitive containment of the literal `"nothing to commit"`. -/
def nothingToCommit (s : String) : Bool :=
  listHasSub "nothing to commit".toList (s.toList.map Char.toLower)

/-- The four git subprocess invocations of one cycle; the commit command
carries the quoted message text. -/
inductive Cmd where
  | verify
  | stage
  | commit (msg : String)
  | push
deriving DecidableEq

/-- `msg.replace(/"/g, '\\"')` (src/main.ts line 73). -/
def escQuotes (s : String) : String :=
  String.mk (s.toList.flatMap fun c =>
    if c = Char.ofNat 34 then [Char.ofNat 92, c] else [c])

/-- The command line a `Cmd` stands for, as passed to `run`. -/
def cmdLine : Cmd → String
  | .verify => "git rev-parse --is-inside-work-tree"
  | .stage => "git add -A"
  | .commit msg =>
      "git commit -m " ++ String.mk [Char.ofNat 34] ++ escQuotes msg
        ++ String.mk [Char.ofNat 34]
  | .push => "git push"

/-- The observable result of one call of `commitAndPush`: the notices
shown, the subprocess commands invoked in order, the error value that
reached the outer catch (and was logged via `console.error`) if any,
and the value of `isRunning` after the routine returns. -/
structure Outcome where
  notices : List String
  commands : List Cmd
  caught : Option JSErrVal
  running : Bool
deriving DecidableEq

/-- The notice text built by the outer catch (src/main.ts line 89):
`'only commit: Error\n' + msg.slice(0, 400)`. -/
def errorNoticeOf (e : JSErrVal) : String :=
  "only commit: Error\n" ++ jsSlice (diagText e) 400

/-- Outcome of a cycle aborted by failure `f` after invoking `cmds`:
the outer catch shows the truncated-diagnostic notice, logs the caught
value, and the `finally` block clears `isRunning`. -/
def failOutcome (cmds : List Cmd) (f : ExecFailure) : Outcome :=
  { notices := [errorNoticeOf (rejOf f)], commands := cmds
    caught := some (rejOf f), running := false }

/-- The environment of one cycle: the resolved vault path
(`getVaultPath()`, `none` when the adapter is not a
`FileSystemAdapter`) and the outcome each of the four git subprocesses
would have if invoked. -/
structure Env where
  vaultPath : Option String
  verify : ExecResult
  stage : ExecResult
  commit : ExecResult
  push : ExecResult

/-- The final `await this.run('git push', cwd)` step. -/
def runPushStep (cmds : List Cmd) (pr : ExecResult) : Outcome :=
  match pr with
  | .fail f => failOutcome (cmds ++ [.push]) f
  | .ok _ _ =>
      { notices := [], commands := cmds ++ [.push], caught := none, running := false }

/-- `commitAndPush()` (src/main.ts lines 52-94) as a function of the
initial `isRunning` flag, the environment, and the current date. -/
def commitAndPush (isRunning : Bool) (env : Env) (d : DateParts) : Outcome :=
  if isRunning then
    { notices := ["only commit: already running"], commands := [], caught := none
      running := true }
  else
    match env.vaultPath with
    | none =>
        { notices := ["Available on desktop only"], commands := [], caught := none
          running := false }
    | some _ =>
        match env.verify with
        | .fail f => failOutcome [.verify] f
        | .ok _ _ =>
            let msg := buildCommitMessage d
            match env.stage with
            | .fail f => failOutcome [.verify, .stage] f
            | .ok _ _ =>
                match env.commit with
                | .ok _ _ => runPushStep [.verify, .stage, .commit msg] env.push
                | .fail f =>
                    if nothingToCommit (diagText (rejOf f)) then
                      runPushStep [.verify, .stage, .commit msg] env.push
                    else
                      failOutcome [.verify, .stage, .commit msg] f

/-- Modelled from the spec wording of the failure-reporting rule: the
best available diagnostic text is stderr if non-empty, else stdout if
non-empty, else the error value's own message, else its string form,
trimmed of whitespace.  Compared below against `diagText`, the extraction
the code performs. -/
def specDiagChoice (e : JSErrVal) : String :=
  jsTrim
    (if e.stderr.getD "" ≠ "" then e.stderr.getD ""
     else if e.stdout.getD "" ≠ "" then e.stdout.getD ""
     else if e.message.getD "" ≠ "" then e.message.getD ""
     else e.strForm)

/-- Modelled from the spec wording of the commit-message format: the
minute zero-padded to two digits. -/
def specPad2 (n : ℕ) : String :=
  if n < 10 then "0" ++ toString n else toString n

/-- Modelled from the spec wording of the commit-message format:
`"auto commit at M-D-YYYY h:mm"` with month and day unpadded, hour
unpadded, minute zero-padded to two digits. -/
def specMessage (d : DateParts) : String :=
  "auto commit at " ++ toString (d.month0 + 1) ++ "-" ++ toString d.day ++ "-"
    ++ toString d.year ++ " " ++ toString d.hours ++ ":" ++ specPad2 d.minutes

/-- Modelled from the spec wording of the settings coercion: the parse
result if it is finite and non-negative, and 0 otherwise. -/
def specCoercedInterval (n : JSNum) : JSNum :=
  if jsIsFinite n = true ∧ jsGe0 n = true then n else .num 0

theorem specDiagChoice_eq_diagText (e : JSErrVal) : specDiagChoice e = diagText e := by
  unfold specDiagChoice diagText jsOrS
  split_ifs <;> simp_all

theorem pad2_eq (n : ℕ) (h : n < 60) :
    jsPadStart (toString n) 2 (Char.ofNat 48) = specPad2 n := by
  interval_cases n <;> rfl

theorem notices_of_caught (env : Env) (d : DateParts) (e : JSErrVal)
    (h : (commitAndPush false env d).caught = some e) :
    (commitAndPush false env d).notices = [errorNoticeOf e] := by
  obtain ⟨vp, vr, sr, cr, pr⟩ := env
  cases vp <;> cases vr <;> cases sr <;> cases cr <;> cases pr <;>
    simp_all [commitAndPush, runPushStep, failOutcome] <;>
    split at h <;> simp_all [runPushStep, failOutcome]

/-- C1: when the commit step fails, the routine proceeds to the push step
(and reports success when push succeeds, i.e. logs nothing and shows no
notice) if and only if the diagnostic text extracted from the failure
case-insensitively contains `"nothing to commit"`; otherwise the push
command is never invoked and the routine reports the commit failure. -/
theorem commit_failure_recovered_iff (vo ve so se : String) (f : ExecFailure)
    (pr : ExecResult) (path : String) (d : DateParts) :
    (Cmd.push ∈ (commitAndPush false ⟨some path, .ok vo ve, .ok so se, .fail f, pr⟩ d).commands
      ↔ nothingToCommit (diagText (rejOf f)) = true)
    ∧ (commitAndPush false ⟨some path, .ok vo ve, .ok so se, .fail f, pr⟩ d).caught
        = (if nothingToCommit (diagText (rejOf f)) = true
           then match pr with
             | .fail g => some (rejOf g)
             | .ok _ _ => none
           else some (rejOf f))
    ∧ (commitAndPush false ⟨some path, .ok vo ve, .ok so se, .fail f, pr⟩ d).notices
        = (if nothingToCommit (diagText (rejOf f)) = true
           then match pr with
             | .fail g => [errorNoticeOf (rejOf g)]
             | .ok _ _ => []
           else [errorNoticeOf (rejOf f)]) := by
  cases hn : nothingToCommit (diagText (rejOf f)) <;> cases pr <;>
    simp [commitAndPush, runPushStep, failOutcome, hn]

/-- C2: after `reschedule()`, a non-finite or non-positive interval value
leaves no timer installed (whatever timer was active before is gone), and
a finite value strictly greater than zero installs exactly one repeating
timer whose period in milliseconds is `max(10000, round(v * 60000))`. -/
theorem reschedule_timer_spec (v : JSNum) (s : SchedState) :
    ((jsIsFinite v = false ∨ jsLe0 v = true) → (reschedule v s).activePeriod = none)
    ∧ ∀ q : ℚ, v = .num q → 0 < q →
        (reschedule v s).activePeriod = some (max 10000 (jsRound (q * 60000))) := by
  constructor
  · intro h
    cases v with
    | num q =>
        rcases h with h | h
        · simp [jsIsFinite] at h
        · simp only [jsLe0, decide_eq_true_eq] at h
          simp [reschedule, if_pos h]
    | nan => rfl
    | posInf => rfl
    | negInf => rfl
  · rintro q rfl hq
    simp [reschedule, if_neg (not_le.mpr hq)]

theorem reschedule_timer_spec_witness :
    (reschedule .nan ⟨some 3⟩).activePeriod = none
    ∧ (reschedule (.num 5) ⟨some 3⟩).activePeriod = some 300000 := by
  constructor
  · exact (reschedule_timer_spec .nan ⟨some 3⟩).1 (Or.inl rfl)
  · rw [(reschedule_timer_spec (.num 5) ⟨some 3⟩).2 5 rfl (by norm_num)]
    norm_num [jsRound]

/-- C3: every invocation of the commit routine that passes the busy-flag
guard ends with the run-state flag false, whichever path it takes. -/
theorem commitAndPush_clears_running (env : Env) (d : DateParts) :
    (commitAndPush false env d).running = false := by
  obtain ⟨vp, vr, sr, cr, pr⟩ := env
  cases vp <;> cases vr <;> cases sr <;> cases cr <;> cases pr <;>
    simp [commitAndPush, runPushStep, failOutcome] <;>
    split <;> simp [runPushStep, failOutcome]

/-- C4: invoking the commit routine while the run-state flag is true shows
exactly the "already running" notice, invokes no subprocess, logs no
error, and leaves the flag unchanged. -/
theorem commitAndPush_busy_noop (env : Env) (d : DateParts) :
    commitAndPush true env d =
      { notices := ["only commit: already running"], commands := [], caught := none
        running := true } := rfl

/-- C5: when the verify step fails, the only subprocess invoked is the
verify command - no stage, commit or push call occurs - and the routine
reports the failure. -/
theorem verify_failure_aborts (f : ExecFailure) (sr cr pr : ExecResult)
    (path : String) (d : DateParts) :
    (commitAndPush false ⟨some path, .fail f, sr, cr, pr⟩ d).commands = [.verify]
    ∧ (commitAndPush false ⟨some path, .fail f, sr, cr, pr⟩ d).caught = some (rejOf f)
    ∧ (commitAndPush false ⟨some path, .fail f, sr, cr, pr⟩ d).notices
        = [errorNoticeOf (rejOf f)] :=
  ⟨rfl, rfl, rfl⟩

/-- C6: on every unrecovered failure the routine logs the caught value and
shows exactly one notice: the first 400 characters of the diagnostic text
chosen as stderr if non-empty, else stdout if non-empty, else the caught
value's own message, else its string form, trimmed of whitespace; the
routine never propagates the failure (it is a total function into
`Outcome`). -/
theorem unrecovered_failure_notice (env : Env) (d : DateParts) (e : JSErrVal)
    (h : (commitAndPush false env d).caught = some e) :
    (commitAndPush false env d).notices
      = ["only commit: Error\n" ++ jsSlice (specDiagChoice e) 400] := by
  rw [notices_of_caught env d e h]
  simp [errorNoticeOf, specDiagChoice_eq_diagText]

theorem unrecovered_failure_notice_witness :
    (commitAndPush false
        ⟨some "/vault", .ok "" "", .ok "" "", .ok "" "",
          .fail ⟨⟨"Command failed: git push", some 1⟩, "", "remote: rejected"⟩⟩
        ⟨0, 1, 2, 3, 4⟩).notices
      = ["only commit: Error\n"
          ++ jsSlice
            (specDiagChoice
              (rejOf ⟨⟨"Command failed: git push", some 1⟩, "", "remote: rejected"⟩))
            400] :=
  unrecovered_failure_notice _ _ _ (by decide)

/-- C7: for every date (minutes ranging over 0-59 as `getMinutes`
returns), the commit message is `"auto commit at M-D-YYYY h:mm"` with
month, day and hour unpadded and the minute zero-padded to two digits;
for March 7, 2024, 9:05 AM it is exactly `"auto commit at 3-7-2024
9:05"`. -/
theorem buildCommitMessage_format :
    (∀ d : DateParts, d.minutes < 60 → buildCommitMessage d = specMessage d)
    ∧ buildCommitMessage ⟨2, 7, 2024, 9, 5⟩ = "auto commit at 3-7-2024 9:05" := by
  constructor
  · intro d h
    simp only [buildCommitMessage, specMessage, pad2_eq d.minutes h]
  · decide

theorem buildCommitMessage_format_witness :
    (5 : ℕ) < 60 ∧ buildCommitMessage ⟨2, 7, 2024, 9, 5⟩ = specMessage ⟨2, 7, 2024, 9, 5⟩ :=
  ⟨by decide, buildCommitMessage_format.1 ⟨2, 7, 2024, 9, 5⟩ (by decide)⟩

/-- C8: when no filesystem-backed working directory can be resolved, the
routine shows the "available on desktop only" notice, invokes no
subprocess, and aborts without reporting an error. -/
theorem no_vault_desktop_only (vr sr cr pr : ExecResult) (d : DateParts) :
    commitAndPush false ⟨none, vr, sr, cr, pr⟩ d =
      { notices := ["Available on desktop only"], commands := [], caught := none
        running := false } := rfl

/-- C9: for every parse result of the interval field, the stored interval
is the parsed value if it is finite and non-negative and 0 otherwise;
that coerced value is persisted, and the scheduler is re-evaluated with
it immediately. -/
theorem settings_change_spec (n : JSNum) (s : SchedState) :
    (settingsOnChange n s).stored = specCoercedInterval n
    ∧ (settingsOnChange n s).persisted = some (specCoercedInterval n)
    ∧ (settingsOnChange n s).sched = reschedule (specCoercedInterval n) s := by
  have h : settingsCoerce n = specCoercedInterval n := by
    unfold settingsCoerce specCoercedInterval
    rcases hf : jsIsFinite n <;> rcases hg : jsGe0 n <;> simp [hf, hg]
  exact ⟨by simp [settingsOnChange, h], by simp [settingsOnChange, h],
    by simp [settingsOnChange, h]⟩

/-- C10: a subprocess failure with empty captured stdout and stderr is
rejected as a plain object with no `message` property, so the diagnostic
text falls through to the object string form `"[object Object]"` (which
in particular does not match the "nothing to commit" pattern). -/
theorem run_rejection_empty_diag (f : ExecFailure)
    (h1 : f.stdout = "") (h2 : f.stderr = "") :
    (rejOf f).message = none
    ∧ diagText (rejOf f) = "[object Object]"
    ∧ nothingToCommit (diagText (rejOf f)) = false := by
  obtain ⟨err, so, se⟩ := f
  subst h1
  subst h2
  exact ⟨rfl, rfl, rfl⟩

theorem run_rejection_empty_diag_witness :
    (⟨⟨"spawn git ENOENT", none⟩, "", ""⟩ : ExecFailure).stdout = ""
    ∧ diagText (rejOf ⟨⟨"spawn git ENOENT", none⟩, "", ""⟩) = "[object Object]" :=
  ⟨rfl, (run_rejection_empty_diag ⟨⟨"spawn git ENOENT", none⟩, "", ""⟩ rfl rfl).2.1⟩
